import Mathlib

/-!
Shallow embedding of the MonoTrack page/block store (`src/App.tsx`) and the
content-generation service (`src/services/geminiService.ts`).

Conventions of the embedding:
* Block and page kinds are the runtime strings the code compares against
  (`"h1"`, `"h2"`, `"text"`, `"todo"`, `"bullet"`; `"project"`, ...), since the
  TypeScript union types erase to plain strings at runtime.
* `Date.now()` is threaded in as an explicit `now : Nat` argument.
* Random `generateId()` results are threaded in as explicit id arguments
  (or an id supply `Nat → String` for bulk generation).
* JavaScript numbers on the progress path are modelled with exact arithmetic:
  `Math.round((completed / total) * 100)` becomes round-half-up of the exact
  rational, i.e. `(200 * completed + total) / (2 * total)` in natural division.
* The asynchronous Gemini round trip is abstracted by a `GenOutcome` value:
  missing API key, a successful parse of a raw block array, or a thrown /
  caught failure (network, quota, parse).
-/

namespace MonoTrack

/-- `Block` from `src/types.ts` (`src/unnamed/part_001`): `id`, `type`
(one of the `BlockType` strings at runtime), `content`, and the optional
`checked` flag, whose absence the code treats as `false` (`b.checked` truthiness,
`b.checked || false`). -/
structure Block where
  id : String
  type : String
  content : String
  checked : Bool := false
deriving Repr, DecidableEq

/-- `Page` from `src/types.ts`: metadata plus the ordered block list. -/
structure Page where
  id : String
  type : String
  title : String
  emoji : String
  createdAt : Nat
  updatedAt : Nat
  blocks : List Block
  progress : Nat
deriving Repr, DecidableEq

/-- `Partial<Page>` as passed to `updatePage`: every field optional.
(`updatedAt` is listed for structural fidelity but `updatePage` always
overwrites it with the current time, as the spread in the source puts
`updatedAt: Date.now()` last.) -/
structure PageUpdate where
  id : Option String := none
  type : Option String := none
  title : Option String := none
  emoji : Option String := none
  createdAt : Option Nat := none
  updatedAt : Option Nat := none
  blocks : Option (List Block) := none
  progress : Option Nat := none
deriving Repr, DecidableEq

/-- `Partial<Block>` as passed to `updateBlock`. -/
structure BlockUpdate where
  id : Option String := none
  type : Option String := none
  content : Option String := none
  checked : Option Bool := none
deriving Repr, DecidableEq

/-- `Math.round((completed / total) * 100)` from `updatePage`, with the
JavaScript float arithmetic idealised to the exact rational: round-half-up of
`100 * completed / total`, computed as a natural division. -/
def mathRoundPct (completed total : Nat) : Nat :=
  (200 * completed + total) / (2 * total)

/-- The `if (updates.blocks)` branch of `updatePage` in `src/App.tsx`:
filter the todos of the (already merged) block list and, when there is at
least one, overwrite `progress` with the rounded completion percentage;
otherwise leave `progress` as it is. -/
def recalcProgress (p : Page) : Page :=
  let todos := p.blocks.filter (fun b => b.type == "todo")
  if 0 < todos.length then
    { p with progress := mathRoundPct (todos.filter (fun b => b.checked)).length todos.length }
  else p

/-- The body of `updatePage` applied to the matching page:
`{ ...p, ...updates, updatedAt: Date.now() }` followed by the progress
recalculation when `updates.blocks` is present. -/
def applyPageUpdate (p : Page) (u : PageUpdate) (now : Nat) : Page :=
  let merged : Page :=
    { id := u.id.getD p.id
      type := u.type.getD p.type
      title := u.title.getD p.title
      emoji := u.emoji.getD p.emoji
      createdAt := u.createdAt.getD p.createdAt
      updatedAt := now
      blocks := u.blocks.getD p.blocks
      progress := u.progress.getD p.progress }
  match u.blocks with
  | some _ => recalcProgress merged
  | none => merged

/-- `updatePage` from `src/App.tsx`: map over the store, leaving pages with a
different id untouched. -/
def updatePage (pages : List Page) (id : String) (u : PageUpdate) (now : Nat) : List Page :=
  pages.map (fun p => if p.id == id then applyPageUpdate p u now else p)

/-- The new page built by `createPage` in `src/App.tsx` (fresh id and initial
block id supplied explicitly; both timestamps `Date.now()`). -/
def newPageFor (ty pid bid : String) (now : Nat) : Page :=
  { id := pid
    type := ty
    title := ""
    emoji := if ty == "daily_log" then "📅" else "📄"
    createdAt := now
    updatedAt := now
    blocks := [{ id := bid, type := "h1", content := "" }]
    progress := 0 }

/-- `createPage` from `src/App.tsx`: `setPages([newPage, ...pages])`. -/
def createPage (pages : List Page) (ty pid bid : String) (now : Nat) : List Page :=
  newPageFor ty pid bid now :: pages

/-- `deletePage` from `src/App.tsx`: `prev.filter(p => p.id !== id)`. -/
def deletePage (pages : List Page) (id : String) : List Page :=
  pages.filter (fun p => !(p.id == id))

/-- `{ ...b, ...updates }` for a block, as in `updateBlock`. -/
def applyBlockUpdate (b : Block) (u : BlockUpdate) : Block :=
  { id := u.id.getD b.id
    type := u.type.getD b.type
    content := u.content.getD b.content
    checked := u.checked.getD b.checked }

/-- `updateBlock` from `src/App.tsx`: look the page up, rewrite the matching
block, and hand the new list to `updatePage`. Unknown page id: early return. -/
def updateBlock (pages : List Page) (pageId blockId : String) (u : BlockUpdate) (now : Nat) :
    List Page :=
  match pages.find? (fun p => p.id == pageId) with
  | none => pages
  | some page =>
    let newBlocks := page.blocks.map (fun b => if b.id == blockId then applyBlockUpdate b u else b)
    updatePage pages pageId { blocks := some newBlocks } now

/-- `newBlocks.splice(pos, 0, b)` for an insertion position `pos ≤ length`
(JavaScript clamps larger positions to the length, which `take`/`drop` also do). -/
def spliceInsert (l : List Block) (pos : Nat) (b : Block) : List Block :=
  l.take pos ++ b :: l.drop pos

/-- `addBlock` from `src/App.tsx` (the spec's `insertBlockAfter`):
`findIndex` yields `-1` when `afterBlockId` is absent, and the splice happens
at `index + 1`. The fresh block is a `'text'` (paragraph) block with empty
content. -/
def addBlock (pages : List Page) (pageId afterBlockId newId : String) (now : Nat) : List Page :=
  match pages.find? (fun p => p.id == pageId) with
  | none => pages
  | some page =>
    let index : Int :=
      match page.blocks.findIdx? (fun b => b.id == afterBlockId) with
      | some i => (i : Int)
      | none => -1
    let newBlock : Block := { id := newId, type := "text", content := "" }
    let newBlocks := spliceInsert page.blocks (index + 1).toNat newBlock
    updatePage pages pageId { blocks := some newBlocks } now

/-- `deleteBlock` from `src/App.tsx`: no-op for an unknown page or when the
page is down to a single block; otherwise filter the block out. -/
def deleteBlock (pages : List Page) (pageId blockId : String) (now : Nat) : List Page :=
  match pages.find? (fun p => p.id == pageId) with
  | none => pages
  | some page =>
    if page.blocks.length ≤ 1 then pages
    else updatePage pages pageId
      { blocks := some (page.blocks.filter (fun b => !(b.id == blockId))) } now

/-- A raw block descriptor as parsed from the Gemini JSON response in
`src/services/geminiService.ts`: `type` and `content` are required by the
response schema, `checked` is optional. -/
structure RawBlock where
  type : String
  content : String
  checked : Option Bool := none
deriving Repr, DecidableEq

/-- Outcome of one asynchronous Gemini round trip, abstracting the network:
the missing-API-key early return, a successfully parsed raw block array, or a
caught failure (network / quota / parse error). -/
inductive GenOutcome where
  | noApiKey
  | success (raw : List RawBlock)
  | failure
deriving Repr, DecidableEq

/-- The `rawBlocks.map(b => ({ id: generateId(), type: b.type, content:
b.content, checked: b.checked || false }))` mapping of `generatePageBreakdown`,
with the fresh ids drawn positionally from the supply `ids`. -/
def mapWithIds (ids : Nat → String) : Nat → List RawBlock → List Block
  | _, [] => []
  | i, b :: rest =>
    { id := ids i, type := b.type, content := b.content, checked := b.checked.getD false }
      :: mapWithIds ids (i + 1) rest

/-- `generatePageBreakdown` from `src/services/geminiService.ts`, as a function
of the round-trip outcome: one explanatory `'text'` block when the API key is
missing or the call failed, otherwise the 1:1 mapping of the parsed raw blocks. -/
def generatePageBreakdown (o : GenOutcome) (ids : Nat → String) : List Block :=
  match o with
  | .noApiKey =>
    [{ id := ids 0, type := "text",
       content := "API Key missing. Please configure your environment." }]
  | .success raw => mapWithIds ids 0 raw
  | .failure =>
    [{ id := ids 0, type := "text", content := "Failed to generate plan. Please try again." }]

/-- The `rawBlocks.map(b => ({ id: generateId(), type: 'todo', content:
b.content, checked: false }))` mapping of `suggestNextSteps`. -/
def mapSuggestions (ids : Nat → String) : Nat → List RawBlock → List Block
  | _, [] => []
  | i, b :: rest =>
    { id := ids i, type := "todo", content := b.content, checked := false }
      :: mapSuggestions ids (i + 1) rest

/-- `suggestNextSteps` from `src/services/geminiService.ts`: empty on a missing
API key or failure, otherwise every parsed entry becomes an unchecked `'todo'`. -/
def suggestNextSteps (o : GenOutcome) (ids : Nat → String) : List Block :=
  match o with
  | .noApiKey => []
  | .success raw => mapSuggestions ids 0 raw
  | .failure => []

/-- `handleAiBreakdown` from `src/App.tsx`: append the generated blocks to the
selected page via `updatePage` (no-op when no page is selected / found). -/
def handleAiBreakdown (pages : List Page) (selectedPageId : String) (o : GenOutcome)
    (ids : Nat → String) (now : Nat) : List Page :=
  match pages.find? (fun p => p.id == selectedPageId) with
  | none => pages
  | some page =>
    updatePage pages selectedPageId
      { blocks := some (page.blocks ++ generatePageBreakdown o ids) } now

/-- `handleAiSuggest` from `src/App.tsx`: when at least one suggestion came
back, append an `'h2'` header block `"AI Suggestions"` followed by the
suggestions; otherwise do nothing. -/
def handleAiSuggest (pages : List Page) (selectedPageId : String) (o : GenOutcome)
    (ids : Nat → String) (headerId : String) (now : Nat) : List Page :=
  match pages.find? (fun p => p.id == selectedPageId) with
  | none => pages
  | some page =>
    let suggestions := suggestNextSteps o ids
    if 0 < suggestions.length then
      let header : Block := { id := headerId, type := "h2", content := "AI Suggestions" }
      updatePage pages selectedPageId
        { blocks := some (page.blocks ++ header :: suggestions) } now
    else pages

/-- One store operation, for reasoning about arbitrary operation sequences.
Fresh ids, timestamps and generation outcomes are carried in the operation. -/
inductive StoreOp where
  | create (ty pid bid : String) (now : Nat)
  | update (id : String) (u : PageUpdate) (now : Nat)
  | deletePg (id : String)
  | insertAfter (pageId afterBlockId newId : String) (now : Nat)
  | updateBlk (pageId blockId : String) (u : BlockUpdate) (now : Nat)
  | deleteBlk (pageId blockId : String) (now : Nat)
  | appendGen (pageId : String) (o : GenOutcome) (ids : Nat → String) (now : Nat)
  | suggest (pageId : String) (o : GenOutcome) (ids : Nat → String) (hid : String) (now : Nat)

/-- Interpretation of a store operation on the page collection. -/
def applyOp (pages : List Page) : StoreOp → List Page
  | .create ty pid bid now => createPage pages ty pid bid now
  | .update id u now => updatePage pages id u now
  | .deletePg id => deletePage pages id
  | .insertAfter pid aid nid now => addBlock pages pid aid nid now
  | .updateBlk pid bid u now => updateBlock pages pid bid u now
  | .deleteBlk pid bid now => deleteBlock pages pid bid now
  | .appendGen pid o ids now => handleAiBreakdown pages pid o ids now
  | .suggest pid o ids hid now => handleAiSuggest pages pid o ids hid now

/-- A sequence of store operations, applied left to right. -/
def applyOps (pages : List Page) (ops : List StoreOp) : List Page :=
  ops.foldl applyOp pages

/-- An operation never hands `updatePage` an explicitly empty block list. -/
def opKeepsBlocksNonempty : StoreOp → Prop
  | .update _ u _ => u.blocks ≠ some []
  | _ => True

/-- Model of `INITIAL_PAGES[0]` from `src/App.tsx` (timestamps replaced by
small literals): note the stored `progress` of `35` while the todos are 1 of 2
checked. -/
def samplePage1 : Page :=
  { id := "1"
    type := "project"
    title := "Website Redesign"
    emoji := "🎨"
    createdAt := 100
    updatedAt := 200
    blocks :=
      [ { id := "b1", type := "h1", content := "Project Goals" }
      , { id := "b2", type := "text", content := "We need to modernize the look and feel of the landing page." }
      , { id := "b3", type := "h2", content := "Tasks" }
      , { id := "b4", type := "todo", content := "Research competitors", checked := true }
      , { id := "b5", type := "todo", content := "Draft wireframes", checked := false } ]
    progress := 35 }

/-- A one-block page, for edge cases around the minimum-one-block invariant. -/
def pageOneBlock : Page :=
  { id := "1"
    type := "project"
    title := ""
    emoji := "📄"
    createdAt := 10
    updatedAt := 20
    blocks := [{ id := "x1", type := "h1", content := "" }]
    progress := 0 }

/-- A page with no todo blocks and a manually set progress of 42. -/
def pageNoTodo42 : Page :=
  { id := "1"
    type := "work"
    title := "Notes"
    emoji := "📄"
    createdAt := 10
    updatedAt := 20
    blocks := [{ id := "x1", type := "text", content := "note" }]
    progress := 42 }

/-! ### Helper lemmas about the store primitives -/

/-- `recalcProgress` spelt out: only `progress` can change, and only when the
block list contains a todo. -/
theorem recalcProgress_eq (p : Page) :
    recalcProgress p =
      if 0 < (p.blocks.filter (fun b => b.type == "todo")).length then
        { p with progress :=
            (mathRoundPct
              ((p.blocks.filter (fun b => b.type == "todo")).filter (fun b => b.checked)).length
              (p.blocks.filter (fun b => b.type == "todo")).length) }
      else p := rfl

/-- `applyPageUpdate` when the update carries a block list. -/
theorem applyPageUpdate_some (p : Page) (u : PageUpdate) (now : Nat) (l : List Block)
    (hb : u.blocks = some l) :
    applyPageUpdate p u now = recalcProgress
      { id := u.id.getD p.id
        type := u.type.getD p.type
        title := u.title.getD p.title
        emoji := u.emoji.getD p.emoji
        createdAt := u.createdAt.getD p.createdAt
        updatedAt := now
        blocks := l
        progress := u.progress.getD p.progress } := by
  unfold applyPageUpdate
  rw [hb]
  rfl

/-- `applyPageUpdate` when the update carries no block list. -/
theorem applyPageUpdate_none (p : Page) (u : PageUpdate) (now : Nat)
    (hb : u.blocks = none) :
    applyPageUpdate p u now =
      { id := u.id.getD p.id
        type := u.type.getD p.type
        title := u.title.getD p.title
        emoji := u.emoji.getD p.emoji
        createdAt := u.createdAt.getD p.createdAt
        updatedAt := now
        blocks := p.blocks
        progress := u.progress.getD p.progress } := by
  unfold applyPageUpdate
  rw [hb]
  rfl

/-- The blocks of an updated page: the new list if one was supplied, else the
old one (the recalculation touches only `progress`). -/
theorem blocks_applyPageUpdate (p : Page) (u : PageUpdate) (now : Nat) :
    (applyPageUpdate p u now).blocks = u.blocks.getD p.blocks := by
  cases hb : u.blocks with
  | none => rw [applyPageUpdate_none p u now hb]; rfl
  | some l =>
    rw [applyPageUpdate_some p u now l hb, recalcProgress_eq]
    split <;> rfl

theorem mapSuggestions_length (ids : Nat → String) (i : Nat) (raw : List RawBlock) :
    (mapSuggestions ids i raw).length = raw.length := by
  induction raw generalizing i with
  | nil => rfl
  | cons r rest ih => simp [mapSuggestions, ih]

theorem mapSuggestions_mem (ids : Nat → String) (i : Nat) (raw : List RawBlock) :
    ∀ b ∈ mapSuggestions ids i raw, b.type = "todo" ∧ b.checked = false := by
  induction raw generalizing i with
  | nil => intro b hb; cases hb
  | cons r rest ih =>
    intro b hb
    rw [mapSuggestions, List.mem_cons] at hb
    rcases hb with rfl | hb
    · exact ⟨rfl, rfl⟩
    · exact ih (i + 1) b hb

theorem mapWithIds_proj (ids : Nat → String) (i : Nat) (raw : List RawBlock) :
    (mapWithIds ids i raw).map (fun b => (b.type, b.content, b.checked))
      = raw.map (fun r => (r.type, r.content, r.checked.getD false)) := by
  induction raw generalizing i with
  | nil => rfl
  | cons r rest ih => simp [mapWithIds, ih]

/-! ### C9: createPage -/

/-- C9 (confirmed): `createPage` returns a page with `progress = 0`, both
timestamps equal to the current time, and exactly one block of kind heading1
(the code's `'h1'`) with empty content, and prepends it to the collection. -/
theorem C9_createPage (pages : List Page) (ty pid bid : String) (now : Nat) :
    (createPage pages ty pid bid now).length = pages.length + 1
    ∧ (createPage pages ty pid bid now).tail = pages
    ∧ (createPage pages ty pid bid now).head?.map
        (fun p => (p.id, p.progress, p.createdAt, p.updatedAt,
          p.blocks.map (fun b => (b.type, b.content))))
      = some (pid, 0, now, now, [("h1", "")]) := by
  refine ⟨rfl, rfl, rfl⟩

/-! ### C8: generation failure fallbacks -/

/-- C8 (confirmed): on a failed generation round trip, `generatePageBreakdown`
resolves to exactly one explanatory paragraph (`'text'`) block and
`suggestNextSteps` resolves to the empty list; `handleAiBreakdown` then merely
appends that single block via `updatePage`, and `handleAiSuggest` leaves the
store untouched. No exception reaches the store. -/
theorem C8_failure_fallbacks (pages : List Page) (pid : String) (page : Page)
    (ids : Nat → String) (hid : String) (now : Nat)
    (hfind : pages.find? (fun p => p.id == pid) = some page) :
    (generatePageBreakdown GenOutcome.failure ids).map (fun b => (b.type, b.content))
        = [("text", "Failed to generate plan. Please try again.")]
    ∧ suggestNextSteps GenOutcome.failure ids = []
    ∧ handleAiBreakdown pages pid GenOutcome.failure ids now
        = updatePage pages pid
            { blocks := some (page.blocks ++ generatePageBreakdown GenOutcome.failure ids) } now
    ∧ handleAiSuggest pages pid GenOutcome.failure ids hid now = pages := by
  refine ⟨rfl, rfl, ?_, ?_⟩
  · unfold handleAiBreakdown
    rw [hfind]
  · unfold handleAiSuggest
    rw [hfind]
    rfl

/-- Witness for C8 at a concrete store. -/
theorem C8_failure_fallbacks_witness :
    suggestNextSteps GenOutcome.failure (fun _ => "g") = []
    ∧ handleAiSuggest [samplePage1] "1" GenOutcome.failure (fun _ => "g") "h" 300
        = [samplePage1] := by
  have h := C8_failure_fallbacks [samplePage1] "1" samplePage1 (fun _ => "g") "h" 300 rfl
  exact ⟨h.2.1, h.2.2.2⟩

/-! ### C10: handleAiSuggest appends header plus suggestions -/

/-- C10 (confirmed): when `suggestNextSteps` resolves with `n > 0` suggestions,
`handleAiSuggest` appends exactly `n + 1` blocks: first the `'h2'` header
`"AI Suggestions"`, then the `n` suggestions in order, each an unchecked
`'todo'`; with an empty suggestion list nothing is appended at all. -/
theorem C10_handleAiSuggest (pages : List Page) (pid : String) (page : Page)
    (raw : List RawBlock) (ids : Nat → String) (hid : String) (now : Nat)
    (hfind : pages.find? (fun p => p.id == pid) = some page)
    (hraw : raw ≠ []) :
    (suggestNextSteps (GenOutcome.success raw) ids).length = raw.length
    ∧ (∀ b ∈ suggestNextSteps (GenOutcome.success raw) ids,
        b.type = "todo" ∧ b.checked = false)
    ∧ handleAiSuggest pages pid (GenOutcome.success raw) ids hid now
        = updatePage pages pid
            { blocks := some (page.blocks ++
                { id := hid, type := "h2", content := "AI Suggestions" }
                  :: suggestNextSteps (GenOutcome.success raw) ids) } now
    ∧ handleAiSuggest pages pid (GenOutcome.success []) ids hid now = pages := by
  refine ⟨mapSuggestions_length ids 0 raw, mapSuggestions_mem ids 0 raw, ?_, ?_⟩
  · have hlen : 0 < (suggestNextSteps (GenOutcome.success raw) ids).length := by
      rw [show suggestNextSteps (GenOutcome.success raw) ids = mapSuggestions ids 0 raw from rfl,
        mapSuggestions_length]
      exact List.length_pos.mpr hraw
    unfold handleAiSuggest
    rw [hfind]
    show (if 0 < (suggestNextSteps (GenOutcome.success raw) ids).length then _ else _) = _
    rw [if_pos hlen]
  · unfold handleAiSuggest
    rw [hfind]
    rfl

/-- Witness for C10 at a concrete store: one raw suggestion leads to the header
plus one unchecked todo being appended. -/
theorem C10_handleAiSuggest_witness :
    (handleAiSuggest [pageNoTodo42] "1"
        (GenOutcome.success [{ type := "todo", content := "Ship it" }])
        (fun _ => "g") "h" 300).map
      (fun p => p.blocks.map (fun b => (b.type, b.content, b.checked)))
      = [[("text", "note", false), ("h2", "AI Suggestions", false),
          ("todo", "Ship it", false)]] := by
  have h := C10_handleAiSuggest [pageNoTodo42] "1" pageNoTodo42
    [{ type := "todo", content := "Ship it" }] (fun _ => "g") "h" 300 rfl (by decide)
  rw [h.2.2.1]
  rfl

/-! ### C4: normalization of generated blocks -/

/-- C4 counterexample: on the raw input
`[{kind:'bogus', content:'x'}, {kind:'todo', content:'y'}]` the code appends
BOTH entries, and the first keeps its unrecognized kind `"bogus"` — so it is
false that exactly one block is appended and false that no block with an
invalid kind is ever created. -/
theorem C4_counterexample :
    (handleAiBreakdown [pageOneBlock] "1"
        (GenOutcome.success
          [{ type := "bogus", content := "x" }, { type := "todo", content := "y" }])
        (fun _ => "g") 30).map (fun p => p.blocks.map (fun b => b.type))
      = [["h1", "bogus", "todo"]] := by rfl

/-- C4 (corrected): `generatePageBreakdown` maps parsed raw entries one-to-one,
copying `kind` and `content` verbatim — without validating the kind against the
closed set — and defaulting `checked` to `false`; nothing is dropped or
coerced, so the bogus entry is appended alongside the todo. -/
theorem C4_amended (raw : List RawBlock) (ids : Nat → String) :
    (generatePageBreakdown (GenOutcome.success raw) ids).map
        (fun b => (b.type, b.content, b.checked))
      = raw.map (fun r => (r.type, r.content, r.checked.getD false)) :=
  mapWithIds_proj ids 0 raw

theorem id_applyPageUpdate (p : Page) (u : PageUpdate) (now : Nat) :
    (applyPageUpdate p u now).id = u.id.getD p.id := by
  cases hb : u.blocks with
  | none => rw [applyPageUpdate_none p u now hb]
  | some l =>
    rw [applyPageUpdate_some p u now l hb, recalcProgress_eq]
    split <;> rfl

theorem createdAt_applyPageUpdate (p : Page) (u : PageUpdate) (now : Nat) :
    (applyPageUpdate p u now).createdAt = u.createdAt.getD p.createdAt := by
  cases hb : u.blocks with
  | none => rw [applyPageUpdate_none p u now hb]
  | some l =>
    rw [applyPageUpdate_some p u now l hb, recalcProgress_eq]
    split <;> rfl

theorem updatedAt_applyPageUpdate (p : Page) (u : PageUpdate) (now : Nat) :
    (applyPageUpdate p u now).updatedAt = now := by
  cases hb : u.blocks with
  | none => rw [applyPageUpdate_none p u now hb]
  | some l =>
    rw [applyPageUpdate_some p u now l hb, recalcProgress_eq]
    split <;> rfl

theorem progress_applyPageUpdate_todo (p : Page) (u : PageUpdate) (now : Nat) (l : List Block)
    (hb : u.blocks = some l) (ht : 0 < (l.filter (fun b => b.type == "todo")).length) :
    (applyPageUpdate p u now).progress =
      mathRoundPct ((l.filter (fun b => b.type == "todo")).filter (fun b => b.checked)).length
        (l.filter (fun b => b.type == "todo")).length := by
  rw [applyPageUpdate_some p u now l hb, recalcProgress_eq, apply_ite Page.progress]
  dsimp only
  rw [if_pos ht]

theorem progress_applyPageUpdate_noTodo (p : Page) (u : PageUpdate) (now : Nat) (l : List Block)
    (hb : u.blocks = some l) (ht : l.filter (fun b => b.type == "todo") = []) :
    (applyPageUpdate p u now).progress = u.progress.getD p.progress := by
  rw [applyPageUpdate_some p u now l hb, recalcProgress_eq, apply_ite Page.progress]
  dsimp only
  rw [ht]
  rfl

/-! ### C1: insertBlockAfter with an unknown afterBlockId -/

/-- C1 counterexample: on a one-block page, `addBlock` with the unknown
`afterBlockId` `"zz"` does NOT leave the block sequence unchanged — the fresh
block is inserted at the front (`findIndex` returns `-1`, and the splice at
index `-1 + 1 = 0` prepends). -/
theorem C1_counterexample :
    (addBlock [pageOneBlock] "1" "zz" "n1" 7).map (fun p => p.blocks.map Block.id)
      = [["n1", "x1"]] := by rfl

/-- C1 (corrected): with a known page but an afterBlockId matching no block of
that page, `addBlock` is not a no-op: it behaves exactly like an `updatePage`
that prepends the fresh empty `'text'` block to the page's block sequence (the
existing blocks keep their order after it). An unknown `pageId`, by contrast,
is a genuine no-op (the early `return`). -/
theorem C1_amended (pages : List Page) (pid aid nid : String) (page : Page) (now : Nat)
    (hfind : pages.find? (fun p => p.id == pid) = some page)
    (haid : ∀ b ∈ page.blocks, ¬ b.id = aid) :
    addBlock pages pid aid nid now =
      updatePage pages pid
        { blocks := some ({ id := nid, type := "text", content := "" } :: page.blocks) } now := by
  have hidx : page.blocks.findIdx? (fun b => b.id == aid) = none := by
    rw [List.findIdx?_eq_none_iff]
    intro b hb
    simpa using haid b hb
  simp only [addBlock, hfind, hidx]
  rfl

/-- Witness for C1 at a concrete store. -/
theorem C1_amended_witness :
    addBlock [pageOneBlock] "1" "zz" "n1" 7
      = updatePage [pageOneBlock] "1"
          { blocks := some ({ id := "n1", type := "text", content := "" }
              :: pageOneBlock.blocks) } 7 :=
  C1_amended [pageOneBlock] "1" "zz" "n1" pageOneBlock 7 rfl (by decide)

/-! ### C5: frame of updatePage / updateBlock on id, createdAt, block ids -/

/-- C5 counterexample: `updatePage` merges arbitrary `Partial<Page>` fields, so
a call carrying an `id` field does mutate the page's id. -/
theorem C5_counterexample :
    pageOneBlock.id = "1"
    ∧ (updatePage [pageOneBlock] "1" { id := some "hacked" } 5).map Page.id = ["hacked"] :=
  ⟨rfl, rfl⟩

/-- C5 (corrected): the claimed frame property holds exactly for the calls the
app makes, i.e. whenever the partial update does not itself carry the protected
fields: if the page update has no `id` and no `createdAt` field, `updatePage`
preserves every page's `id` and `createdAt`; if the block update has no `id`
field, `updateBlock` additionally preserves every block id (stated over a
store with pairwise-distinct page ids). A partial update that does carry `id`
or `createdAt` overwrites them, as the counterexample shows. -/
theorem C5_amended (pages : List Page) (pid : String) (u : PageUpdate) (bu : BlockUpdate)
    (bid : String) (now : Nat)
    (hui : u.id = none) (huc : u.createdAt = none) (hbi : bu.id = none)
    (hnd : (pages.map Page.id).Nodup) :
    (updatePage pages pid u now).map (fun p => (p.id, p.createdAt))
        = pages.map (fun p => (p.id, p.createdAt))
    ∧ (updateBlock pages pid bid bu now).map (fun p => (p.id, p.createdAt, p.blocks.map Block.id))
        = pages.map (fun p => (p.id, p.createdAt, p.blocks.map Block.id)) := by
  constructor
  · unfold updatePage
    rw [List.map_map]
    apply List.map_congr_left
    intro p hp
    simp only [Function.comp_apply]
    by_cases h : (p.id == pid) = true
    · rw [if_pos h]
      rw [Prod.mk.injEq]
      exact ⟨by rw [id_applyPageUpdate, hui]; rfl,
        by rw [createdAt_applyPageUpdate, huc]; rfl⟩
    · rw [if_neg h]
  · cases hfind : pages.find? (fun p => p.id == pid) with
    | none => simp only [updateBlock, hfind]
    | some page =>
      have hpage_mem : page ∈ pages := List.mem_of_find?_eq_some hfind
      have hpage_id : page.id = pid := by
        have := List.find?_some hfind
        simpa using this
      have hids : (page.blocks.map
            (fun b => if b.id == bid then applyBlockUpdate b bu else b)).map Block.id
          = page.blocks.map Block.id := by
        rw [List.map_map]
        apply List.map_congr_left
        intro b _
        simp only [Function.comp_apply]
        by_cases hb : (b.id == bid) = true
        · rw [if_pos hb]
          show bu.id.getD b.id = b.id
          rw [hbi]
          rfl
        · rw [if_neg hb]
      simp only [updateBlock, hfind]
      unfold updatePage
      rw [List.map_map]
      apply List.map_congr_left
      intro p hp
      simp only [Function.comp_apply]
      by_cases h : (p.id == pid) = true
      · rw [if_pos h]
        have hpid : p.id = pid := by simpa using h
        have hpp : p = page :=
          List.inj_on_of_nodup_map hnd hp hpage_mem (by rw [hpid, hpage_id])
        rw [Prod.mk.injEq, Prod.mk.injEq]
        refine ⟨by rw [id_applyPageUpdate]; rfl, by rw [createdAt_applyPageUpdate]; rfl, ?_⟩
        rw [blocks_applyPageUpdate]
        show (page.blocks.map
            (fun b => if b.id == bid then applyBlockUpdate b bu else b)).map Block.id
          = p.blocks.map Block.id
        rw [hids, hpp]
      · rw [if_neg h]

/-- Witness for C5 at a concrete store: a title-only update leaves id and
createdAt alone, and a checked-only block update leaves all block ids alone. -/
theorem C5_amended_witness :
    (updatePage [samplePage1] "1" { title := some "New" } 300).map
        (fun p => (p.id, p.createdAt)) = [("1", 100)]
    ∧ (updateBlock [samplePage1] "1" "b4" { checked := some false } 300).map
        (fun p => p.blocks.map Block.id) = [["b1", "b2", "b3", "b4", "b5"]] := by
  have h := C5_amended [samplePage1] "1" { title := some "New" } { checked := some false }
    "b4" 300 rfl rfl rfl (by decide)
  constructor
  · rw [h.1]; rfl
  · have h2 := congrArg (List.map (fun x : String × Nat × List String => x.2.2)) h.2
    rw [List.map_map, List.map_map] at h2
    exact h2.trans rfl

/-! ### C7: updateBlock / deleteBlock with an unknown blockId -/

/-- C7 counterexample: on the initial sample page (stored `progress = 35`,
`updatedAt = 200`, todos 1 of 2 checked), `updateBlock` with the unknown block
id `"zz"` leaves the block list alone but refreshes `updatedAt` to the call
time and recomputes `progress` to 50 — so it is false that no field of the
page changes. -/
theorem C7_counterexample :
    samplePage1.updatedAt = 200 ∧ samplePage1.progress = 35
    ∧ (updateBlock [samplePage1] "1" "zz" { content := some "x" } 999).map
        (fun p => (p.updatedAt, p.progress, p.blocks.length))
      = [(999, 50, 5)] :=
  ⟨rfl, rfl, rfl⟩

/-- C7 (corrected): `updateBlock` with a blockId matching no block of the found
page raises nothing and returns nothing and leaves the block sequence and every
other page untouched, but it is not effect-free on the page: it behaves exactly
like an `updatePage` resubmitting the page's own block list, which refreshes
`updatedAt` and recomputes `progress` from the (unchanged) blocks. The same
holds for `deleteBlock` when the page has more than one block; on a one-block
page `deleteBlock` is a genuine no-op, as is either call with an unknown
pageId. -/
theorem C7_amended (pages : List Page) (pid bid : String) (page : Page) (u : BlockUpdate)
    (now : Nat)
    (hfind : pages.find? (fun p => p.id == pid) = some page)
    (hbid : ∀ b ∈ page.blocks, ¬ b.id = bid) :
    updateBlock pages pid bid u now = updatePage pages pid { blocks := some page.blocks } now
    ∧ (1 < page.blocks.length →
        deleteBlock pages pid bid now = updatePage pages pid { blocks := some page.blocks } now)
    ∧ (page.blocks.length ≤ 1 → deleteBlock pages pid bid now = pages) := by
  have hmap : page.blocks.map (fun b => if b.id == bid then applyBlockUpdate b u else b)
      = page.blocks := by
    have step : ∀ b ∈ page.blocks,
        (if (b.id == bid) = true then applyBlockUpdate b u else b) = (fun b : Block => b) b :=
      fun b hb => by rw [if_neg (by simpa using hbid b hb)]
    rw [List.map_congr_left step, List.map_id']
  have hfilter : page.blocks.filter (fun b => !(b.id == bid)) = page.blocks :=
    List.filter_eq_self.mpr (fun b hb => by simpa using hbid b hb)
  refine ⟨?_, ?_, ?_⟩
  · simp only [updateBlock, hfind, hmap]
  · intro hgt
    simp only [deleteBlock, hfind, hfilter]
    rw [if_neg (by omega)]
  · intro hle
    simp only [deleteBlock, hfind]
    rw [if_pos hle]

/-- Witness for C7 at a concrete store. -/
theorem C7_amended_witness :
    updateBlock [samplePage1] "1" "zz" { content := some "x" } 999
      = updatePage [samplePage1] "1" { blocks := some samplePage1.blocks } 999
    ∧ deleteBlock [samplePage1] "1" "zz" 999
      = updatePage [samplePage1] "1" { blocks := some samplePage1.blocks } 999 := by
  have h := C7_amended [samplePage1] "1" "zz" samplePage1 { content := some "x" } 999
    rfl (by decide)
  exact ⟨h.1, h.2.1 (by decide)⟩

/-! ### C6: pages without todos keep their progress -/

theorem filter_eq_nil_of_sublist {l1 l2 : List Block} (p : Block → Bool)
    (hs : List.Sublist l1 l2) (h : l2.filter p = []) : l1.filter p = [] := by
  have hf := hs.filter p
  rw [h] at hf
  exact List.sublist_nil.mp hf

/-- If a blocks update carries a todo-free list (and no progress field), every
page keeps its progress. -/
theorem map_progress_updatePage_noTodo (pages : List Page) (pid : String) (u : PageUpdate)
    (now : Nat) (l : List Block)
    (hb : u.blocks = some l) (hup : u.progress = none)
    (ht : l.filter (fun b => b.type == "todo") = []) :
    (updatePage pages pid u now).map Page.progress = pages.map Page.progress := by
  unfold updatePage
  rw [List.map_map]
  apply List.map_congr_left
  intro p hp
  simp only [Function.comp_apply]
  by_cases h : (p.id == pid) = true
  · rw [if_pos h]
    show (applyPageUpdate p u now).progress = p.progress
    rw [progress_applyPageUpdate_noTodo p u now l hb ht, hup]
    rfl
  · rw [if_neg h]

/-- C6 (confirmed): for a found page with zero todo blocks, every block
mutation that keeps the todo count at zero (`updateBlock` whose result list is
still todo-free, and `addBlock`/`deleteBlock`, which cannot introduce a todo)
leaves every page's `progress` unchanged — the stored value is never forced to
0. -/
theorem C6_noTodo_progress_frame (pages : List Page) (pid : String) (page : Page) (now : Nat)
    (hfind : pages.find? (fun p => p.id == pid) = some page)
    (hzero : page.blocks.filter (fun b => b.type == "todo") = []) :
    (∀ bid u, ((page.blocks.map (fun b => if b.id == bid then applyBlockUpdate b u else b)).filter
          (fun b => b.type == "todo") = []) →
        (updateBlock pages pid bid u now).map Page.progress = pages.map Page.progress)
    ∧ (∀ aid nid, (addBlock pages pid aid nid now).map Page.progress = pages.map Page.progress)
    ∧ (∀ bid, (deleteBlock pages pid bid now).map Page.progress = pages.map Page.progress) := by
  refine ⟨?_, ?_, ?_⟩
  · intro bid u hkeep
    simp only [updateBlock, hfind]
    exact map_progress_updatePage_noTodo pages pid _ now _ rfl rfl hkeep
  · intro aid nid
    simp only [addBlock, hfind]
    apply map_progress_updatePage_noTodo pages pid _ now _ rfl rfl
    unfold spliceInsert
    rw [List.filter_append, List.filter_cons]
    rw [filter_eq_nil_of_sublist _ (List.take_sublist _ _) hzero,
      filter_eq_nil_of_sublist _ (List.drop_sublist _ _) hzero]
    rfl
  · intro bid
    simp only [deleteBlock, hfind]
    by_cases hle : page.blocks.length ≤ 1
    · rw [if_pos hle]
    · rw [if_neg hle]
      exact map_progress_updatePage_noTodo pages pid _ now _ rfl rfl
        (filter_eq_nil_of_sublist _ (List.filter_sublist _) hzero)

/-- Witness for C6 at a concrete store: the progress 42 of a todo-free page
survives a block insertion. -/
theorem C6_noTodo_progress_frame_witness :
    (addBlock [pageNoTodo42] "1" "x1" "n1" 7).map Page.progress = [42] := by
  have h := C6_noTodo_progress_frame [pageNoTodo42] "1" pageNoTodo42 7 rfl rfl
  rw [h.2.1 "x1" "n1"]
  rfl

/-! ### C3: derived progress is round-half-up of the completion ratio -/

/-- Round-half-up of `100 * c / t` (the spec's `round`) agrees with the code's
`Math.round((c / t) * 100)` as embedded by `mathRoundPct`. -/
theorem mathRoundPct_eq_floor (c t : Nat) (ht : 0 < t) :
    (⌊(100 * (c : ℚ)) / (t : ℚ) + 1 / 2⌋).toNat = mathRoundPct c t := by
  have ht' : (t : ℚ) ≠ 0 := Nat.cast_ne_zero.mpr (Nat.pos_iff_ne_zero.mp ht)
  have hq : (100 * (c : ℚ)) / (t : ℚ) + 1 / 2 = ((200 * c + t : ℕ) : ℚ) / ((2 * t : ℕ) : ℚ) := by
    push_cast
    field_simp
    ring
  rw [Int.floor_toNat, hq, Nat.floor_div_eq_div]
  rfl

theorem mathRoundPct_le_100 (c t : Nat) (ht : 0 < t) (hct : c ≤ t) :
    mathRoundPct c t ≤ 100 := by
  unfold mathRoundPct
  have h2t : 0 < 2 * t := by omega
  have hlt : (200 * c + t) / (2 * t) < 101 := by
    rw [Nat.div_lt_iff_lt_mul h2t]
    omega
  omega

/-- C3 (confirmed): when the blocks update carries at least one todo block,
every matching page's progress becomes round-half-up of
`100 * completedCount / totalTodoCount`, which lies in `[0, 100]` (it is a
`Nat`, and bounded by 100 since `completedCount ≤ totalTodoCount`). JavaScript
float arithmetic is idealised to exact rational arithmetic here. -/
theorem C3_progress_roundHalfUp (pages : List Page) (pid : String) (u : PageUpdate) (now : Nat)
    (l : List Block) (hb : u.blocks = some l)
    (ht : 0 < (l.filter (fun b => b.type == "todo")).length) :
    (updatePage pages pid u now).map Page.progress
      = pages.map (fun p => if p.id == pid then
          (⌊(100 * ((((l.filter (fun b => b.type == "todo")).filter
              (fun b => b.checked)).length : ℕ) : ℚ))
            / (((l.filter (fun b => b.type == "todo")).length : ℕ) : ℚ) + 1 / 2⌋).toNat
        else p.progress)
    ∧ (⌊(100 * ((((l.filter (fun b => b.type == "todo")).filter
          (fun b => b.checked)).length : ℕ) : ℚ))
        / (((l.filter (fun b => b.type == "todo")).length : ℕ) : ℚ) + 1 / 2⌋).toNat ≤ 100 := by
  have hct : ((l.filter (fun b => b.type == "todo")).filter (fun b => b.checked)).length
      ≤ (l.filter (fun b => b.type == "todo")).length := List.length_filter_le _ _
  constructor
  · unfold updatePage
    rw [List.map_map]
    apply List.map_congr_left
    intro p hp
    simp only [Function.comp_apply]
    by_cases h : (p.id == pid) = true
    · simp only [if_pos h]
      rw [progress_applyPageUpdate_todo p u now l hb ht, mathRoundPct_eq_floor _ _ ht]
    · simp only [if_neg h]
  · rw [mathRoundPct_eq_floor _ _ ht]
    exact mathRoundPct_le_100 _ _ ht hct

/-- The spec's round-trip example: todo blocks `[checked, unchecked, checked]`. -/
def todoTFT : List Block :=
  [ { id := "t1", type := "todo", content := "a", checked := true }
  , { id := "t2", type := "todo", content := "b", checked := false }
  , { id := "t3", type := "todo", content := "c", checked := true } ]

/-- Witness for C3: updating a page's blocks to `[checked, unchecked, checked]`
todos yields progress `67 = round(100 * 2 / 3)`. -/
theorem C3_progress_roundHalfUp_witness :
    (updatePage [pageNoTodo42] "1" { blocks := some todoTFT } 9).map Page.progress = [67] := by
  have h := C3_progress_roundHalfUp [pageNoTodo42] "1" { blocks := some todoTFT } 9 todoTFT
    rfl (by decide)
  rw [h.1, mathRoundPct_eq_floor _ _ (by decide)]
  decide

/-! ### C2: the minimum-one-block invariant -/

theorem spliceInsert_ne_nil (l : List Block) (pos : Nat) (b : Block) :
    spliceInsert l pos b ≠ [] := by
  unfold spliceInsert
  intro h
  exact List.cons_ne_nil _ _ (List.append_eq_nil.mp h).2

/-- Under distinct block ids, filtering one id out of a list of length `≥ 2`
leaves a nonempty list. -/
theorem filter_ne_ne_nil (l : List Block) (bid : String)
    (hnd : (l.map Block.id).Nodup) (h1 : 1 < l.length) :
    l.filter (fun b => !(b.id == bid)) ≠ [] := by
  rcases l with _ | ⟨a, l2⟩
  · simp at h1
  rcases l2 with _ | ⟨b, rest⟩
  · simp at h1
  simp only [List.map_cons, List.nodup_cons, List.mem_cons] at hnd
  have hab : ¬ a.id = b.id := fun he => hnd.1 (Or.inl he)
  by_cases hA : a.id = bid
  · have hB : ¬ b.id = bid := fun he => hab (by rw [hA, he])
    have hmem : b ∈ (a :: b :: rest).filter (fun x => !(x.id == bid)) :=
      List.mem_filter.mpr ⟨by simp, by simpa using hB⟩
    exact List.ne_nil_of_mem hmem
  · have hmem : a ∈ (a :: b :: rest).filter (fun x => !(x.id == bid)) :=
      List.mem_filter.mpr ⟨by simp, by simpa using hA⟩
    exact List.ne_nil_of_mem hmem

/-- `updatePage` keeps every block list nonempty as long as any supplied
replacement list is nonempty. -/
theorem length_blocks_updatePage (pages : List Page) (pid : String) (u : PageUpdate) (now : Nat)
    (hu : ∀ l, u.blocks = some l → l ≠ [])
    (hlen : ∀ p ∈ pages, 0 < p.blocks.length) :
    ∀ p ∈ updatePage pages pid u now, 0 < p.blocks.length := by
  intro p hp
  unfold updatePage at hp
  rcases List.mem_map.mp hp with ⟨q, hq, rfl⟩
  by_cases h : (q.id == pid) = true
  · rw [if_pos h, blocks_applyPageUpdate]
    cases hb : u.blocks with
    | none => simpa using hlen q hq
    | some l =>
      have := hu l hb
      simpa using List.length_pos.mpr this
  · rw [if_neg h]
    exact hlen q hq

/-- One store operation preserves "every page has at least one block",
assuming block ids are distinct in the pre-state and that the operation does
not hand `updatePage` an explicitly empty list. -/
theorem step_blocks_nonempty (s : List Page) (op : StoreOp)
    (hlen : ∀ p ∈ s, 0 < p.blocks.length)
    (hnd : ∀ p ∈ s, (p.blocks.map Block.id).Nodup)
    (hop : opKeepsBlocksNonempty op) :
    ∀ p ∈ applyOp s op, 0 < p.blocks.length := by
  cases op with
  | create ty pid bid now =>
    intro p hp
    rcases List.mem_cons.mp hp with rfl | hp
    · exact Nat.one_pos
    · exact hlen p hp
  | update pid u now =>
    exact length_blocks_updatePage s pid u now
      (fun l hl hnil => hop (by rw [hl, hnil])) hlen
  | deletePg pid =>
    intro p hp
    exact hlen p (List.mem_of_mem_filter hp)
  | insertAfter pid aid nid now =>
    cases hfind : s.find? (fun p => p.id == pid) with
    | none =>
      intro p hp
      simp only [applyOp, addBlock, hfind] at hp
      exact hlen p hp
    | some page =>
      intro p hp
      simp only [applyOp, addBlock, hfind] at hp
      refine length_blocks_updatePage s pid _ now ?_ hlen p hp
      intro l hl
      injection hl with hl
      exact hl ▸ spliceInsert_ne_nil _ _ _
  | updateBlk pid bid u now =>
    cases hfind : s.find? (fun p => p.id == pid) with
    | none =>
      intro p hp
      simp only [applyOp, updateBlock, hfind] at hp
      exact hlen p hp
    | some page =>
      intro p hp
      simp only [applyOp, updateBlock, hfind] at hp
      refine length_blocks_updatePage s pid _ now ?_ hlen p hp
      intro l hl
      injection hl with hl
      have hpage : 0 < page.blocks.length := hlen page (List.mem_of_find?_eq_some hfind)
      intro hnil
      rw [← hl, List.map_eq_nil_iff] at hnil
      rw [hnil] at hpage
      simp at hpage
  | deleteBlk pid bid now =>
    cases hfind : s.find? (fun p => p.id == pid) with
    | none =>
      intro p hp
      simp only [applyOp, deleteBlock, hfind] at hp
      exact hlen p hp
    | some page =>
      intro p hp
      simp only [applyOp, deleteBlock, hfind] at hp
      by_cases hle : page.blocks.length ≤ 1
      · rw [if_pos hle] at hp
        exact hlen p hp
      · rw [if_neg hle] at hp
        refine length_blocks_updatePage s pid _ now ?_ hlen p hp
        intro l hl
        injection hl with hl
        refine hl ▸ filter_ne_ne_nil page.blocks bid
          (hnd page (List.mem_of_find?_eq_some hfind)) (by omega)
  | appendGen pid o ids now =>
    cases hfind : s.find? (fun p => p.id == pid) with
    | none =>
      intro p hp
      simp only [applyOp, handleAiBreakdown, hfind] at hp
      exact hlen p hp
    | some page =>
      intro p hp
      simp only [applyOp, handleAiBreakdown, hfind] at hp
      refine length_blocks_updatePage s pid _ now ?_ hlen p hp
      intro l hl
      injection hl with hl
      have hpage : 0 < page.blocks.length := hlen page (List.mem_of_find?_eq_some hfind)
      intro hnil
      rw [← hl] at hnil
      rcases List.append_eq_nil.mp hnil with ⟨h1, _⟩
      rw [h1] at hpage
      simp at hpage
  | suggest pid o ids hid now =>
    cases hfind : s.find? (fun p => p.id == pid) with
    | none =>
      intro p hp
      simp only [applyOp, handleAiSuggest, hfind] at hp
      exact hlen p hp
    | some page =>
      intro p hp
      simp only [applyOp, handleAiSuggest, hfind] at hp
      by_cases hpos : 0 < (suggestNextSteps o ids).length
      · rw [if_pos hpos] at hp
        refine length_blocks_updatePage s pid _ now ?_ hlen p hp
        intro l hl
        injection hl with hl
        have hpage : 0 < page.blocks.length := hlen page (List.mem_of_find?_eq_some hfind)
        intro hnil
        rw [← hl] at hnil
        rcases List.append_eq_nil.mp hnil with ⟨h1, _⟩
        rw [h1] at hpage
        simp at hpage
      · rw [if_neg hpos] at hp
        exact hlen p hp

/-- C2 counterexample: `updatePage` accepts an arbitrary `Partial<Page>`, so a
single store operation `updatePage("1", { blocks: [] })` leaves the page with
zero blocks — the invariant does not survive every operation sequence. -/
theorem C2_counterexample :
    (applyOps [pageOneBlock] [StoreOp.update "1" { blocks := some ([] : List Block) } 5]).map
      (fun p => p.blocks.length) = [0] := by rfl

/-- C2 (corrected): the `blocks.length ≥ 1` invariant holds after every
sequence of store operations provided (i) no `updatePage` in the sequence
carries an explicitly empty `blocks` replacement, and (ii) block ids stay
pairwise distinct within each page throughout the run (the spec's own §3
uniqueness invariant, assumed here at every intermediate state so that
`deleteBlock` removes at most one block). In particular `deleteBlock` on a
page's last remaining block is a no-op. -/
theorem C2_amended (pages : List Page) (ops : List StoreOp)
    (h0 : ∀ p ∈ pages, 0 < p.blocks.length)
    (hnd : ∀ n : Nat, ∀ p ∈ applyOps pages (ops.take n), (p.blocks.map Block.id).Nodup)
    (hops : ∀ op ∈ ops, opKeepsBlocksNonempty op) :
    ∀ p ∈ applyOps pages ops, 0 < p.blocks.length := by
  induction ops generalizing pages with
  | nil => exact h0
  | cons op ops ih =>
    have hnd0 : ∀ p ∈ pages, (p.blocks.map Block.id).Nodup := hnd 0
    have hstep := step_blocks_nonempty pages op h0 hnd0 (hops op (List.mem_cons_self _ _))
    exact ih (applyOp pages op) hstep (fun n => hnd (n + 1))
      (fun o ho => hops o (List.mem_cons_of_mem _ ho))

/-- Witness for C2 on a concrete run: deleting the only block of a one-block
page (a no-op) and then inserting a block leaves every page nonempty. -/
theorem C2_amended_witness :
    0 < ((applyOps [pageOneBlock]
        [StoreOp.deleteBlk "1" "x1" 5, StoreOp.insertAfter "1" "x1" "n1" 6]).headD
          pageOneBlock).blocks.length := by
  refine C2_amended [pageOneBlock]
    [StoreOp.deleteBlk "1" "x1" 5, StoreOp.insertAfter "1" "x1" "n1" 6]
    (by decide) ?_ ?_ _ (by decide)
  · intro n
    match n with
    | 0 => decide
    | 1 => decide
    | n + 2 =>
      simp only [List.take_succ_cons, List.take_nil]
      decide
  · intro op hop
    rcases List.mem_cons.mp hop with rfl | hop
    · trivial
    · rcases List.mem_cons.mp hop with rfl | hop
      · trivial
      · cases hop

end MonoTrack
